import Mathlib

/-!
# Verification of the real-time collaborative-editing subsystem

A shallow embedding, in Lean 4, of the access-controlled Socket.IO note
collaboration layer of the notes-app backend
(`src/backend/src/index.ts`, the `canAccessNote` / `setupNoteSockets`
revision with JWT socket auth, lines 156-255), together with theorems
settling the design-document claims about it.

Conventions of the embedding:
* JavaScript strings are Lean `String`s; values that may be `undefined`
  (`socket.data.userId`, `note.shareCode`, an optional argument) are
  `Option String`, with `none` for `undefined`/`null`.
* JavaScript truthiness on such a value is `jsTruthy`: `undefined`,
  `null` and the empty string are falsy, every other string truthy.
* MongoDB `ObjectId` values are modelled by their canonical 24-character
  lowercase-hex string form (what `toString()` / `toHexString()` return).
* Connections are identified by `Nat` (socket ids); the per-socket state
  (`socket.data`, room membership) and the document store are collected
  in one server state `SState`, and each socket event handler becomes a
  pure function from state and message to state, emitted messages and
  (where the source has an `ack` callback) an acknowledgment value.
-/

namespace NotesApp

/-- JavaScript truthiness of an optional string value: `undefined`/`null`
and `""` are falsy, everything else truthy. -/
def jsTruthy : Option String → Bool
  | none => false
  | some s => !(s == "")

@[simp] theorem jsTruthy_none : jsTruthy none = false := rfl

@[simp] theorem jsTruthy_some (s : String) : jsTruthy (some s) = !(s == "") := rfl

/-- Embedding of `toIdString` (notes socket module): normalizes an id-like
value to a string. The source takes a string, an `ObjectId`, or anything
with `toHexString()`, and returns `null` for falsy input; ids are modelled
by their canonical strings here, so only the falsy (empty) case returns
`none`. -/
def toIdString (s : String) : Option String :=
  if s == "" then none else some s

/-- Embedding of the strict `isValidObjectId` validator: a canonical
MongoDB ObjectId string is exactly 24 lowercase hex characters (Mongoose's
`isValid` plus the round-trip `toString()` equality check force the
canonical lowercase-hex form). -/
def isHexChar (c : Char) : Bool :=
  (decide ('0' ≤ c) && decide (c ≤ '9')) || (decide ('a' ≤ c) && decide (c ≤ 'f'))

def isValidObjectId (id : String) : Bool :=
  id.length == 24 && id.toList.all isHexChar

theorem ne_empty_of_isValidObjectId {id : String} (h : isValidObjectId id = true) :
    id ≠ "" := by
  intro he
  subst he
  simp [isValidObjectId] at h

/-- The note document as the socket layer sees it (`models/Note.ts`):
owner reference, title, serialized body (`html`), public flag, optional
share code, explicit sharing list, and the update timestamp (modelled as
a `Nat` tick). -/
structure Note where
  user : String
  title : String
  html : String
  isPublic : Bool
  shareCode : Option String
  sharedWith : List String
  updatedAt : Nat
  deriving DecidableEq

/-- Embedding of `canAccessNote(note, userId?, providedShareCode?)`
(src/backend/src/index.ts lines 175-190), clause for clause:

```text
if (note.isPublic) return true;
if (providedShareCode && note.shareCode && providedShareCode === note.shareCode) return true;
if (!userId) return false;
const owner = toIdString(note.user);
if (owner && owner === userId) return true;
if (Array.isArray(note.sharedWith)) {
  for (const x of note.sharedWith) {
    const sid = toIdString(x);
    if (sid && sid === userId) return true;
  }
}
return false;
```
-/
def canAccessNote (note : Note) (userId : Option String) (providedShareCode : Option String) : Bool :=
  if note.isPublic then true
  else if jsTruthy providedShareCode && jsTruthy note.shareCode
          && (providedShareCode == note.shareCode) then true
  else if !(jsTruthy userId) then false
  else
    let owner := toIdString note.user
    if jsTruthy owner && (owner == userId) then true
    else if note.sharedWith.any (fun x => jsTruthy (toIdString x) && (toIdString x == userId))
      then true
    else false

/-- Formalisation of the spec's Access Control Evaluator decision list
(§4.2), taken word for word ("first match wins"):
1. document visibility public → allow;
2. a capability token is supplied and equals the stored share token → allow;
3. no identity → deny;
4. identity equals document owner → allow;
5. identity is in the explicit access set → allow;
6. otherwise deny. -/
def canAccessSpec (note : Note) (identity : Option String) (capabilityToken : Option String) : Bool :=
  if note.isPublic then true
  else if capabilityToken.isSome && (capabilityToken == note.shareCode) then true
  else
    match identity with
    | none => false
    | some u =>
      if u == note.user then true
      else if note.sharedWith.contains u then true
      else false

/-- Data-model well-formedness that every stored note satisfies: the owner
field is a (nonempty) canonical ObjectId string, the explicit sharing list
holds such strings, and a stored share code is a generated nonempty hex
string (`crypto.randomBytes(8).toString("hex")`; revocation deletes the
field rather than emptying it). -/
def wfNote (note : Note) : Prop :=
  note.user ≠ "" ∧ "" ∉ note.sharedWith ∧ note.shareCode ≠ some ""

theorem share_clause_eq (cap sc : Option String) (hsc : sc ≠ some "") :
    (jsTruthy cap && jsTruthy sc && (cap == sc)) = (cap.isSome && (cap == sc)) := by
  cases cap with
  | none => simp
  | some t =>
    cases sc with
    | none => simp
    | some v =>
      have hv : v ≠ "" := fun h => hsc (by rw [h])
      by_cases htv : t = v
      · subst htv; simp [hv]
      · simp [htv]

theorem shared_any_eq (l : List String) (u : String) (hu : u ≠ "") :
    (l.any (fun x => jsTruthy (toIdString x) && (toIdString x == some u))) = l.contains u := by
  induction l with
  | nil => simp
  | cons a l ih =>
    have hhead : (jsTruthy (toIdString a) && (toIdString a == some u)) = (u == a) := by
      by_cases ha : a = ""
      · subst ha
        have h1 : (u == "") = false := beq_eq_false_iff_ne.mpr hu
        simp [toIdString, h1]
      · simp only [toIdString, Bool.beq_eq_decide_eq, decide_eq_decide]
        by_cases hau : a = u
        · subst hau; simp [ha]
        · have hua : ¬u = a := fun h => hau h.symm
          simp [ha, hau, hua]
    rw [List.any_cons, hhead, ih]
    simp [List.contains_cons, Bool.beq_eq_decide_eq]

/-- C1: the Access Control Evaluator decides access by the fixed order,
first match wins: allow if public; else allow if a capability token is
supplied and equals the stored share token; else deny without identity;
else allow for the owner; else allow for a member of the explicit access
set; else deny. Proved as: on every well-formed stored note (ObjectId
strings nonempty, generated share codes nonempty), `canAccessNote` equals
the spec's decision list `canAccessSpec` for every identity and token. -/
theorem canAccessNote_matches_decision_order (note : Note)
    (identity capabilityToken : Option String) (hwf : wfNote note) :
    canAccessNote note identity capabilityToken = canAccessSpec note identity capabilityToken := by
  obtain ⟨huser, hshared, hcode⟩ := hwf
  unfold canAccessNote canAccessSpec
  rw [share_clause_eq capabilityToken note.shareCode hcode]
  by_cases hp : note.isPublic = true
  · simp [hp]
  · by_cases h2 : (capabilityToken.isSome && (capabilityToken == note.shareCode)) = true
    · simp [hp, h2]
    · cases identity with
      | none => simp [hp, h2]
      | some u =>
        by_cases hu0 : u = ""
        · subst hu0
          have h3 : ("" == note.user) = false :=
            beq_eq_false_iff_ne.mpr (fun h => huser h.symm)
          have h4 : note.sharedWith.contains "" = false := by simp [hshared]
          simp [hp, h2, h3, h4, hshared]
        · have h6 : toIdString note.user = some note.user := by simp [toIdString, huser]
          by_cases h7 : note.user = u
          · subst h7
            simp [hp, h2, hu0, h6]
          · have h9 : (u == note.user) = false :=
              beq_eq_false_iff_ne.mpr (fun h => h7 h.symm)
            rw [shared_any_eq note.sharedWith u hu0]
            simp [hp, h2, hu0, h6, h7, h9]

/-- Witness for `canAccessNote_matches_decision_order`: a concrete private
note with a share code, evaluated for a non-owner identity carrying the
right capability token. -/
theorem canAccessNote_matches_decision_order_witness :
    wfNote { user := "aaaaaaaaaaaaaaaaaaaaaaaa", title := "t", html := "h",
             isPublic := false, shareCode := some "abc123",
             sharedWith := ["cccccccccccccccccccccccc"], updatedAt := 0 } ∧
    canAccessNote
        { user := "aaaaaaaaaaaaaaaaaaaaaaaa", title := "t", html := "h",
          isPublic := false, shareCode := some "abc123",
          sharedWith := ["cccccccccccccccccccccccc"], updatedAt := 0 }
        (some "bbbbbbbbbbbbbbbbbbbbbbbb") (some "abc123")
      = canAccessSpec
        { user := "aaaaaaaaaaaaaaaaaaaaaaaa", title := "t", html := "h",
          isPublic := false, shareCode := some "abc123",
          sharedWith := ["cccccccccccccccccccccccc"], updatedAt := 0 }
        (some "bbbbbbbbbbbbbbbbbbbbbbbb") (some "abc123") :=
  ⟨⟨by decide, by decide, by decide⟩,
   canAccessNote_matches_decision_order _ _ _ ⟨by decide, by decide, by decide⟩⟩

/-! ## Server state and socket event handlers

The stateful part of `setupNoteSockets` (src/backend/src/index.ts lines
192-255): per-socket `socket.data.currentNoteId`, Socket.IO room
membership, the authenticated `socket.data.userId` bound at handshake by
`attachSocketAuth`, and the Mongo-backed note store accessed through
`Note.findById` / `Note.findByIdAndUpdate`. Each handler is a pure
function of this state. Emitted messages are `(receiver, event)` pairs;
`socket.to(room).emit(...)` delivers to every member of the room except
the sender. (Socket.IO's `socket.rooms` also contains the per-socket id
room, an internal transport artifact disjoint from note ids; it plays no
part in the note-room registry and is omitted.) -/

/-- A connection (socket) id. -/
abbrev ConnId := Nat

/-- The server-to-client events the notes socket layer emits. -/
inductive Ev where
  | loadNote (html title : String)
  | peerJoined (noteId : String)
  | peerLeft (noteId : String)
  | update (html title : String)
  | socketError (message : String)
  deriving DecidableEq

/-- The collaboration server state: the document store, the list of live
connections, each connection's bound identity (`socket.data.userId`), its
`socket.data.currentNoteId`, and the note rooms it is a member of. -/
@[ext] structure SState where
  store : String → Option Note
  conns : List ConnId
  userOf : ConnId → Option String
  current : ConnId → Option String
  roomsOf : ConnId → List String

/-- `socket.to(room).emit(ev)`: deliver `ev` to every live connection in
`room` other than `sender`. -/
def broadcast (s : SState) (room : String) (sender : ConnId) (ev : Ev) :
    List (ConnId × Ev) :=
  (s.conns.filter (fun c => c != sender && (s.roomsOf c).contains room)).map
    (fun c => (c, ev))

/-- Overwrite one connection's `currentNoteId`. -/
def SState.setCurrent (s : SState) (c : ConnId) (v : Option String) : SState :=
  { s with current := fun x => if x = c then v else s.current x }

/-- Overwrite one connection's room-membership list. -/
def SState.setRooms (s : SState) (c : ConnId) (v : List String) : SState :=
  { s with roomsOf := fun x => if x = c then v else s.roomsOf x }

/-- `socket.join(room)`: add the connection to the room (a no-op when it
is already a member — rooms are sets). -/
def joinRoom (s : SState) (c : ConnId) (room : String) : SState :=
  s.setRooms c (List.insert room (s.roomsOf c))

/-- `socket.leave(room)`: remove the connection from the room. -/
def leaveRoom (s : SState) (c : ConnId) (room : String) : SState :=
  s.setRooms c ((s.roomsOf c).filter (fun x => x != room))

@[simp] theorem setCurrent_store (s : SState) (c v) : (s.setCurrent c v).store = s.store := rfl
@[simp] theorem setCurrent_conns (s : SState) (c v) : (s.setCurrent c v).conns = s.conns := rfl
@[simp] theorem setCurrent_userOf (s : SState) (c v) : (s.setCurrent c v).userOf = s.userOf := rfl
@[simp] theorem setCurrent_roomsOf (s : SState) (c v) : (s.setCurrent c v).roomsOf = s.roomsOf := rfl
@[simp] theorem setRooms_store (s : SState) (c v) : (s.setRooms c v).store = s.store := rfl
@[simp] theorem setRooms_conns (s : SState) (c v) : (s.setRooms c v).conns = s.conns := rfl
@[simp] theorem setRooms_userOf (s : SState) (c v) : (s.setRooms c v).userOf = s.userOf := rfl
@[simp] theorem setRooms_current (s : SState) (c v) : (s.setRooms c v).current = s.current := rfl

theorem setCurrent_current (s : SState) (c v x) :
    (s.setCurrent c v).current x = if x = c then v else s.current x := rfl

theorem setRooms_roomsOf (s : SState) (c v x) :
    (s.setRooms c v).roomsOf x = if x = c then v else s.roomsOf x := rfl

/-- The result of a `join` event: new state, emitted messages, and the
acknowledgment value passed to the caller's `ack`. -/
structure JoinResult where
  state : SState
  msgs : List (ConnId × Ev)
  ack : Bool × Option String

/-- Embedding of the `join(noteId, opts, ack)` handler (lines 197-227):
validate the id, fetch the note (not-found check), run `canAccessNote`
with the supplied share code, leave a different previous room (notifying
it with `peer-left`), join the target room, set `currentNoteId`, send
`load-note` to the caller, `peer-joined` to the other members, `ack(true)`. -/
def handleJoin (s : SState) (c : ConnId) (noteId : String)
    (shareCode : Option String) : JoinResult :=
  if !isValidObjectId noteId then ⟨s, [], (false, some "Invalid note id.")⟩ else
  match s.store noteId with
  | none => ⟨s, [], (false, some "Note not found.")⟩
  | some note =>
    if !canAccessNote note (s.userOf c) shareCode then
      ⟨s, [], (false, some "Access denied.")⟩
    else
      -- `if (socket.data.currentNoteId && socket.data.currentNoteId !== noteId)`
      let pl : SState × List (ConnId × Ev) :=
        match s.current c with
        | some prev =>
          if prev != "" && prev != noteId then
            let s1 := leaveRoom s c prev
            (s1, broadcast s1 prev c (Ev.peerLeft prev))
          else (s, [])
        | none => (s, [])
      let s2 := (joinRoom pl.1 c noteId).setCurrent c (some noteId)
      ⟨s2,
       pl.2 ++ (c, Ev.loadNote note.html note.title)
            :: broadcast s2 noteId c (Ev.peerJoined noteId),
       (true, none)⟩

/-- Embedding of the `edit({id, html, title})` handler (lines 229-243):
validate the id, fetch the note, re-run `canAccessNote` with the bound
identity and no share code, persist `{html, title, updatedAt}` via
`findByIdAndUpdate`, and broadcast `update` to the rest of the room.
`now` models the `new Date()` timestamp. -/
def handleEdit (s : SState) (c : ConnId) (id html title : String) (now : Nat) :
    SState × List (ConnId × Ev) :=
  if !isValidObjectId id then (s, [(c, Ev.socketError "Invalid note id.")]) else
  match s.store id with
  | none => (s, [(c, Ev.socketError "Note not found.")])
  | some note =>
    if !canAccessNote note (s.userOf c) none then
      (s, [(c, Ev.socketError "Access denied.")])
    else
      let s1 : SState :=
        { s with store := fun i =>
            if i = id then some { note with html := html, title := title, updatedAt := now }
            else s.store i }
      (s1, broadcast s1 id c (Ev.update html title))

/-- Embedding of the `leave(noteId?, ack)` handler (lines 245-253):
target is the argument or, by `??`, the current room; `!target` (including
the empty string) fails the ack; a room the socket is not in fails the
ack; otherwise leave, clear `currentNoteId` when it matches, notify the
room with `peer-left`, `ack(true)`. -/
def handleLeave (s : SState) (c : ConnId) (noteId : Option String) :
    SState × List (ConnId × Ev) × (Bool × Option String) :=
  let target : Option String :=
    match noteId with
    | some t => some t
    | none => s.current c
  match target with
  | none => (s, [], (false, some "Not in any note room."))
  | some t =>
    if t == "" then (s, [], (false, some "Not in any note room."))
    else if !(s.roomsOf c).contains t then
      (s, [], (false, some "Not joined in that room."))
    else
      let s1 := leaveRoom s c t
      let s2 := if s1.current c = some t then s1.setCurrent c none else s1
      (s2, broadcast s2 t c (Ev.peerLeft t), (true, none))

/-- Transport termination. The access-controlled `setupNoteSockets`
registers no `disconnecting` listener: Socket.IO silently removes the
socket from every room and the connection is destroyed, and (as the
handler's own documentation states) peers receive `peer-left` only on an
explicit `leave`. Nothing is emitted. -/
def handleDisconnect (s : SState) (c : ConnId) : SState × List (ConnId × Ev) :=
  ({ store := s.store,
     conns := s.conns.filter (fun x => x != c),
     userOf := s.userOf,
     current := fun x => if x = c then none else s.current x,
     roomsOf := fun x => if x = c then [] else s.roomsOf x }, [])

/-- A new transport connection (the `io.on("connection", ...)` callback):
`socket.data.currentNoteId = null`, member of no note room. -/
def handleConnect (s : SState) (c : ConnId) : SState :=
  { store := s.store,
    conns := List.insert c s.conns,
    userOf := s.userOf,
    current := fun x => if x = c then none else s.current x,
    roomsOf := fun x => if x = c then [] else s.roomsOf x }

/-- The events that drive the registry state. -/
inductive Event where
  | connect (c : ConnId)
  | join (c : ConnId) (noteId : String) (shareCode : Option String)
  | edit (c : ConnId) (id html title : String) (now : Nat)
  | leave (c : ConnId) (noteId : Option String)
  | disconnect (c : ConnId)

/-- State transition of one event (the state component of each handler). -/
def applyEvent (s : SState) : Event → SState
  | .connect c => handleConnect s c
  | .join c noteId shareCode => (handleJoin s c noteId shareCode).state
  | .edit c id html title now => (handleEdit s c id html title now).1
  | .leave c noteId => (handleLeave s c noteId).1
  | .disconnect c => (handleDisconnect s c).1

/-! ## Concrete fixtures

Canonical 24-hex ObjectId strings, two stored notes (one private with a
share code, one public) and small server states used as concrete inputs
for counterexamples and witnesses. -/

def idA : String := "aaaaaaaaaaaaaaaaaaaaaaaa"

def idP : String := "eeeeeeeeeeeeeeeeeeeeeeee"

def idMissing : String := "bbbbbbbbbbbbbbbbbbbbbbbb"

def ownerId : String := "0123456789abcdef01234567"

/-- A private note with an enabled share code and an empty sharing list. -/
def privateNote : Note :=
  { user := ownerId, title := "t0", html := "h0", isPublic := false,
    shareCode := some "abc123", sharedWith := [], updatedAt := 0 }

/-- A public note. -/
def publicNote : Note :=
  { user := ownerId, title := "p0", html := "q0", isPublic := true,
    shareCode := none, sharedWith := [], updatedAt := 0 }

/-- The store holding exactly `privateNote` at `idA` and `publicNote` at
`idP`. -/
def exStore : String → Option Note :=
  fun i => if i = idA then some privateNote else if i = idP then some publicNote else none

/-- Two anonymous connections; connection 1 sits in the room of the
private note `idA`, connection 0 is in no room. -/
def stA : SState :=
  { store := exStore, conns := [0, 1], userOf := fun _ => none,
    current := fun c => if c = 1 then some idA else none,
    roomsOf := fun c => if c = 1 then [idA] else [] }

/-- Two anonymous connections, both in the room of the public note `idP`. -/
def stP2 : SState :=
  { store := exStore, conns := [0, 1], userOf := fun _ => none,
    current := fun c => if c ≤ 1 then some idP else none,
    roomsOf := fun c => if c ≤ 1 then [idP] else [] }

/-- Two anonymous connections; connection 1 sits in the room of the
public note `idP`, connection 0 is in no room. -/
def stP1 : SState :=
  { store := exStore, conns := [0, 1], userOf := fun _ => none,
    current := fun c => if c = 1 then some idP else none,
    roomsOf := fun c => if c = 1 then [idP] else [] }

/-! ## C2 — share-code write access across the life of the connection -/

/-- C2 counterexample: connection 0 has no bound identity and joins the
private document `idA` through its share code, and the join is accepted
(`ack(true)`). Its very next `edit` on that document is NOT persisted and
NOT broadcast: it is answered by an `Access denied.` error to connection 0
alone, and the stored note is unchanged — refuting the claim that such a
connection retains write access for the life of the connection. -/
theorem shareCode_join_then_edit_denied_cex :
    (handleJoin stA 0 idA (some "abc123")).ack = (true, none) ∧
    (handleEdit (handleJoin stA 0 idA (some "abc123")).state 0 idA "h9" "t9" 7).2
      = [(0, Ev.socketError "Access denied.")] ∧
    (handleEdit (handleJoin stA 0 idA (some "abc123")).state 0 idA "h9" "t9" 7).1.store idA
      = some privateNote := by
  decide

/-- C2 amended: the share code is indeed not re-validated on `edit`, and
in consequence an `edit` from a connection with no bound identity on any
private document is rejected with an access-denied error and has no
effect, whatever share code the connection presented when it joined: only
identity-based or public access is re-evaluated on edit. -/
theorem anonymous_edit_private_denied (s : SState) (c : ConnId)
    (id html title : String) (now : Nat) (note : Note)
    (hv : isValidObjectId id = true) (hn : s.store id = some note)
    (hanon : s.userOf c = none) (hpriv : note.isPublic = false) :
    handleEdit s c id html title now = (s, [(c, Ev.socketError "Access denied.")]) := by
  have hd : canAccessNote note none none = false := by
    simp [canAccessNote, hpriv]
  unfold handleEdit
  rw [hv, hn]
  simp [hanon, hd]

/-- Witness for `anonymous_edit_private_denied` at the concrete state
`stA`. -/
theorem anonymous_edit_private_denied_witness :
    isValidObjectId idA = true ∧ stA.store idA = some privateNote ∧
    stA.userOf 0 = none ∧ privateNote.isPublic = false ∧
    handleEdit stA 0 idA "h9" "t9" 7 = (stA, [(0, Ev.socketError "Access denied.")]) :=
  ⟨by decide, by decide, by decide, by decide,
   anonymous_edit_private_denied stA 0 idA "h9" "t9" 7 privateNote
     (by decide) (by decide) (by decide) (by decide)⟩

/-! ## C3 — transport termination and peer-left -/

/-- C3 counterexample: connections 0 and 1 are both members of the room of
`idP`; connection 0's transport terminates. The remaining member
(connection 1) receives no message at all — zero `peer-left`
notifications, not exactly one. -/
theorem disconnect_no_peerLeft_cex :
    ((stP2.roomsOf 1).contains idP = true) ∧
    (handleDisconnect stP2 0).2 = [] := by
  decide

/-- C3 amended: the access-controlled socket layer registers no
`disconnecting` handler, so when a connection's transport terminates its
room membership is cleaned up silently: the disconnect emits no message to
anyone (remaining members receive zero `peer-left` notifications);
`peer-left` is emitted only by an explicit `leave` or by a `join` that
switches rooms. -/
theorem disconnect_emits_nothing (s : SState) (c : ConnId) :
    (handleDisconnect s c).2 = [] ∧ (handleDisconnect s c).1.roomsOf c = [] := by
  exact ⟨rfl, by simp [handleDisconnect]⟩

/-! ## C4 — whether denial leaks document existence on join -/

/-- C4 counterexample: the anonymous connection 0 is unauthorized for the
private document `idA` and for the absent id `idMissing`; its two join
denials carry different reasons — `Access denied.` versus
`Note not found.` — so the denial outcome does distinguish existence. -/
theorem join_denial_leaks_existence_cex :
    (handleJoin stA 0 idA none).ack = (false, some "Access denied.") ∧
    (handleJoin stA 0 idMissing none).ack = (false, some "Note not found.") ∧
    (handleJoin stA 0 idA none).ack ≠ (handleJoin stA 0 idMissing none).ack := by
  decide

/-- C4 amended: on the join path the denial outcome differs with document
existence: for a well-formed id, a non-existent document is acked
`(false, "Note not found.")` while an existing document the caller may not
access is acked `(false, "Access denied.")`; the two reasons are distinct,
so document existence is observable to unauthorized callers. -/
theorem join_denial_reason_tracks_existence (s : SState) (c : ConnId)
    (noteId : String) (cap : Option String) (hv : isValidObjectId noteId = true) :
    (s.store noteId = none →
       (handleJoin s c noteId cap).ack = (false, some "Note not found.")) ∧
    (∀ note, s.store noteId = some note →
       canAccessNote note (s.userOf c) cap = false →
       (handleJoin s c noteId cap).ack = (false, some "Access denied.")) ∧
    (some "Note not found." : Option String) ≠ some "Access denied." := by
  refine ⟨fun habs => ?_, fun note hn hd => ?_, by decide⟩
  · unfold handleJoin
    rw [hv, habs]
    simp
  · unfold handleJoin
    rw [hv, hn]
    simp [hd]

/-- Witness for `join_denial_reason_tracks_existence` at the concrete
state `stA` and document id `idA`. -/
theorem join_denial_reason_tracks_existence_witness :
    isValidObjectId idA = true ∧
    ((stA.store idA = none →
        (handleJoin stA 0 idA none).ack = (false, some "Note not found.")) ∧
     (∀ note, stA.store idA = some note →
        canAccessNote note (stA.userOf 0) none = false →
        (handleJoin stA 0 idA none).ack = (false, some "Access denied.")) ∧
     (some "Note not found." : Option String) ≠ some "Access denied.") :=
  ⟨by decide, join_denial_reason_tracks_existence stA 0 idA none (by decide)⟩

/-! ## C5 — joining a non-existent document id -/

/-- C5: for every join carrying a well-formed document id that refers to
no stored document, the acknowledgment is `ack(false)` with the not-found
reason, the state is untouched, and that reason is distinct both from the
access-denied reason and from the invalid-id reason. -/
theorem join_nonexistent_ack_not_found (s : SState) (c : ConnId)
    (noteId : String) (cap : Option String)
    (hv : isValidObjectId noteId = true) (habs : s.store noteId = none) :
    (handleJoin s c noteId cap).ack = (false, some "Note not found.") ∧
    (handleJoin s c noteId cap).state = s ∧
    "Note not found." ≠ "Access denied." ∧
    "Note not found." ≠ "Invalid note id." := by
  unfold handleJoin
  rw [hv, habs]
  exact ⟨rfl, rfl, by decide, by decide⟩

/-- Witness for `join_nonexistent_ack_not_found`: joining the absent id
`idMissing` in the concrete state `stA`. -/
theorem join_nonexistent_ack_not_found_witness :
    isValidObjectId idMissing = true ∧ stA.store idMissing = none ∧
    ((handleJoin stA 0 idMissing none).ack = (false, some "Note not found.") ∧
     (handleJoin stA 0 idMissing none).state = stA ∧
     "Note not found." ≠ "Access denied." ∧
     "Note not found." ≠ "Invalid note id.") :=
  ⟨by decide, by decide,
   join_nonexistent_ack_not_found stA 0 idMissing none (by decide) (by decide)⟩

/-! ## Broadcast delivery lemmas -/

theorem filter_beq_nil {l : List ConnId} {r : ConnId} (h : r ∉ l) :
    l.filter (fun c => c == r) = [] := by
  rw [List.filter_eq_nil_iff]
  intro a ha
  simp only [beq_iff_eq]
  exact fun har => h (har ▸ ha)

theorem mem_of_contains {α : Type} [DecidableEq α] [BEq α] [LawfulBEq α]
    {l : List α} {a : α} (h : l.contains a = true) : a ∈ l := by
  simpa using h

theorem filter_beq_single {l : List ConnId} {r : ConnId} (hnd : l.Nodup) (hmem : r ∈ l) :
    l.filter (fun c => c == r) = [r] := by
  induction l with
  | nil => cases hmem
  | cons a l ih =>
    obtain ⟨hnotin, hndl⟩ := List.nodup_cons.mp hnd
    rw [List.filter_cons]
    rcases List.mem_cons.mp hmem with h | h
    · obtain rfl : r = a := h
      simp [filter_beq_nil hnotin]
    · have hal : a ≠ r := fun he => hnotin (he ▸ h)
      have hfa : (a == r) = false := beq_eq_false_iff_ne.mpr hal
      simp [hfa, ih hndl h]

/-- `socket.to(room)` never delivers to the sender (no echo). -/
theorem broadcast_filter_self (s : SState) (room : String) (sender : ConnId) (ev : Ev) :
    (broadcast s room sender ev).filter (fun m => m.1 == sender) = [] := by
  rw [List.filter_eq_nil_iff]
  intro m hm
  unfold broadcast at hm
  rcases List.mem_map.mp hm with ⟨a, ha, rfl⟩
  have hq := (List.mem_filter.mp ha).2
  simp only [Bool.and_eq_true, bne_iff_ne] at hq
  simp only [beq_iff_eq]
  exact hq.1

/-- A room member distinct from the sender receives the broadcast exactly
once. -/
theorem broadcast_filter_receiver (s : SState) (room : String) (sender r : ConnId) (ev : Ev)
    (hnd : s.conns.Nodup) (hmem : r ∈ s.conns) (hne : r ≠ sender)
    (hroom : (s.roomsOf r).contains room = true) :
    (broadcast s room sender ev).filter (fun m => m.1 == r) = [(r, ev)] := by
  unfold broadcast
  rw [List.filter_map]
  rw [show ((fun (m : ConnId × Ev) => m.1 == r) ∘ (fun c => (c, ev)))
        = (fun c : ConnId => c == r) from rfl]
  rw [List.filter_filter]
  have hpr : (fun a : ConnId => (a == r) && (a != sender && (s.roomsOf a).contains room))
      = (fun a : ConnId => a == r) := by
    funext a
    by_cases har : a = r
    · subst har
      simp [hne, mem_of_contains hroom]
    · simp [beq_eq_false_iff_ne.mpr har]
  rw [hpr, filter_beq_single hnd hmem, List.map_cons, List.map_nil]

/-- A room member distinct from the sender is among the receivers. -/
theorem broadcast_mem (s : SState) (room : String) (sender : ConnId) (ev : Ev) (r : ConnId)
    (hmem : r ∈ s.conns) (hne : r ≠ sender) (hroom : (s.roomsOf r).contains room = true) :
    (r, ev) ∈ broadcast s room sender ev := by
  unfold broadcast
  exact List.mem_map.mpr ⟨r, List.mem_filter.mpr ⟨hmem, by simp [hne, mem_of_contains hroom]⟩, rfl⟩

/-! ## C6 — re-joining the room one is already in -/

/-- C6 counterexample: connections 0 and 1 are both in the room of the
public note `idP` (connection 0's current room is already `idP`); a second
`join(idP)` from connection 0 leaves the registry unchanged, BUT the other
member (connection 1) receives a duplicate `peer-joined` notification — a
side effect the claim rules out. -/
theorem rejoin_emits_peerJoined_cex :
    (handleJoin stP2 0 idP none).state.roomsOf 0 = stP2.roomsOf 0 ∧
    (handleJoin stP2 0 idP none).msgs.filter (fun m => m.1 == 1)
      = [(1, Ev.peerJoined idP)] := by
  decide

/-- C6 amended: a join for the room the connection is already in is
idempotent on the registry state (membership, current room, store — the
whole server state is unchanged) and acks `true`, but it is not free of
notifications: the caller is sent the snapshot again and every other
member of the room receives a duplicate `peer-joined` notice. -/
theorem rejoin_idempotent_state (s : SState) (c : ConnId) (noteId : String)
    (cap : Option String) (note : Note)
    (hv : isValidObjectId noteId = true) (hn : s.store noteId = some note)
    (ha : canAccessNote note (s.userOf c) cap = true)
    (hcur : s.current c = some noteId) (hmem : noteId ∈ s.roomsOf c) :
    (handleJoin s c noteId cap).state = s ∧
    (handleJoin s c noteId cap).ack = (true, none) ∧
    (handleJoin s c noteId cap).msgs
      = (c, Ev.loadNote note.html note.title)
          :: broadcast s noteId c (Ev.peerJoined noteId) := by
  have hs2 : (joinRoom s c noteId).setCurrent c (some noteId) = s := by
    apply SState.ext
    · rfl
    · rfl
    · rfl
    · funext x
      by_cases hx : x = c
      · subst hx
        simp [SState.setCurrent, joinRoom, SState.setRooms, hcur]
      · simp [SState.setCurrent, joinRoom, SState.setRooms, hx]
    · funext x
      by_cases hx : x = c
      · subst hx
        simp [SState.setCurrent, joinRoom, SState.setRooms, List.insert_of_mem hmem]
      · simp [SState.setCurrent, joinRoom, SState.setRooms, hx]
  refine ⟨?_, ?_, ?_⟩ <;>
  · unfold handleJoin
    rw [hv, hn]
    simp [ha, hcur, hs2]

/-- Witness for `rejoin_idempotent_state`: connection 0 re-joining `idP`
in the concrete state `stP2`. -/
theorem rejoin_idempotent_state_witness :
    isValidObjectId idP = true ∧ stP2.store idP = some publicNote ∧
    canAccessNote publicNote (stP2.userOf 0) none = true ∧
    stP2.current 0 = some idP ∧ idP ∈ stP2.roomsOf 0 ∧
    ((handleJoin stP2 0 idP none).state = stP2 ∧
     (handleJoin stP2 0 idP none).ack = (true, none) ∧
     (handleJoin stP2 0 idP none).msgs
       = (0, Ev.loadNote publicNote.html publicNote.title)
           :: broadcast stP2 idP 0 (Ev.peerJoined idP)) :=
  ⟨by decide, by decide, by decide, by decide, by decide,
   rejoin_idempotent_state stP2 0 idP none publicNote
     (by decide) (by decide) (by decide) (by decide) (by decide)⟩

/-! ## C7 — denied edits have no effect -/

/-- C7: an `edit` whose access check denies is answered by an error notice
to the originating connection only, and nothing else happens: the result
is exactly the unchanged state (stored title, body and timestamp intact)
with the single `socket-error` message, so no update is broadcast. -/
theorem edit_denied_no_action (s : SState) (c : ConnId) (id html title : String)
    (now : Nat) (note : Note) (hv : isValidObjectId id = true)
    (hn : s.store id = some note)
    (hd : canAccessNote note (s.userOf c) none = false) :
    handleEdit s c id html title now = (s, [(c, Ev.socketError "Access denied.")]) := by
  unfold handleEdit
  rw [hv, hn]
  simp [hd]

/-- Witness for `edit_denied_no_action`: the anonymous connection 0
editing the private note `idA` in the concrete state `stA`. -/
theorem edit_denied_no_action_witness :
    isValidObjectId idA = true ∧ stA.store idA = some privateNote ∧
    canAccessNote privateNote (stA.userOf 0) none = false ∧
    handleEdit stA 0 idA "hx" "tx" 3 = (stA, [(0, Ev.socketError "Access denied.")]) :=
  ⟨by decide, by decide, by decide,
   edit_denied_no_action stA 0 idA "hx" "tx" 3 privateNote
     (by decide) (by decide) (by decide)⟩

/-! ## C8 — exact update delivery and no echo -/

/-- C8: for two distinct connections in the room of a document, a
successful edit from the first delivers to the second exactly one
`update` carrying exactly the sent title and body, and delivers nothing
back to the sender (no echo). -/
theorem edit_update_exact_delivery (s : SState) (c1 c2 : ConnId)
    (id html title : String) (now : Nat) (note : Note)
    (hv : isValidObjectId id = true) (hn : s.store id = some note)
    (ha : canAccessNote note (s.userOf c1) none = true) (hnd : s.conns.Nodup)
    (hmem : c2 ∈ s.conns) (hne : c2 ≠ c1)
    (hroom : (s.roomsOf c2).contains id = true) :
    (handleEdit s c1 id html title now).2.filter (fun m => m.1 == c2)
      = [(c2, Ev.update html title)] ∧
    (handleEdit s c1 id html title now).2.filter (fun m => m.1 == c1) = [] := by
  unfold handleEdit
  rw [hv, hn]
  simp only [ha, Bool.not_true, Bool.false_eq_true, if_false, ite_false]
  constructor
  · exact broadcast_filter_receiver _ id c1 c2 (Ev.update html title) hnd hmem hne hroom
  · exact broadcast_filter_self _ id c1 (Ev.update html title)

/-- Witness for `edit_update_exact_delivery`: connection 0 editing `idP`
in `stP2`; connection 1 is the other room member. -/
theorem edit_update_exact_delivery_witness :
    isValidObjectId idP = true ∧ stP2.store idP = some publicNote ∧
    canAccessNote publicNote (stP2.userOf 0) none = true ∧
    stP2.conns.Nodup ∧ 1 ∈ stP2.conns ∧ (1 : ConnId) ≠ 0 ∧
    (stP2.roomsOf 1).contains idP = true ∧
    ((handleEdit stP2 0 idP "h2" "t2" 9).2.filter (fun m => m.1 == 1)
       = [(1, Ev.update "h2" "t2")] ∧
     (handleEdit stP2 0 idP "h2" "t2" 9).2.filter (fun m => m.1 == 0) = []) :=
  ⟨by decide, by decide, by decide, by decide, by decide, by decide, by decide,
   edit_update_exact_delivery stP2 0 1 idP "h2" "t2" 9 publicNote
     (by decide) (by decide) (by decide) (by decide) (by decide) (by decide) (by decide)⟩

/-! ## C10 — room membership is not a precondition of edit -/

/-- C10: the edit pipeline never consults the sender's room membership:
for any connection whose access check passes on an existing document —
including one that never joined the document's room (`hnot`) — the edit
is persisted (the stored note now carries the sent body, title and the
new timestamp) and the update is delivered to every member of the
document's room other than the sender. -/
theorem edit_without_room_membership (s : SState) (c : ConnId)
    (id html title : String) (now : Nat) (note : Note)
    (hv : isValidObjectId id = true) (hn : s.store id = some note)
    (ha : canAccessNote note (s.userOf c) none = true)
    (hnot : (s.roomsOf c).contains id = false) :
    (handleEdit s c id html title now).1.store id
      = some { note with html := html, title := title, updatedAt := now } ∧
    ∀ c2, c2 ∈ s.conns → c2 ≠ c → (s.roomsOf c2).contains id = true →
      (c2, Ev.update html title) ∈ (handleEdit s c id html title now).2 := by
  unfold handleEdit
  rw [hv, hn]
  simp only [ha, Bool.not_true, Bool.false_eq_true, if_false, ite_false]
  constructor
  · simp
  · intro c2 h1 h2 h3
    exact broadcast_mem _ id c (Ev.update html title) c2 h1 h2 h3

/-- Witness for `edit_without_room_membership`: connection 0 never joined
the room of `idP` in `stP1`, yet its edit is persisted and delivered to
the room member connection 1. -/
theorem edit_without_room_membership_witness :
    isValidObjectId idP = true ∧ stP1.store idP = some publicNote ∧
    canAccessNote publicNote (stP1.userOf 0) none = true ∧
    (stP1.roomsOf 0).contains idP = false ∧
    ((handleEdit stP1 0 idP "h3" "t3" 11).1.store idP
       = some { publicNote with html := "h3", title := "t3", updatedAt := 11 } ∧
     ∀ c2, c2 ∈ stP1.conns → c2 ≠ 0 → (stP1.roomsOf c2).contains idP = true →
       (c2, Ev.update "h3" "t3") ∈ (handleEdit stP1 0 idP "h3" "t3" 11).2) :=
  ⟨by decide, by decide, by decide, by decide,
   edit_without_room_membership stP1 0 idP "h3" "t3" 11 publicNote
     (by decide) (by decide) (by decide) (by decide)⟩

/-! ## C9 — a connection is in at most one room -/

/-- The registry invariant the socket layer maintains: a connection's
`currentNoteId`, when set, is a validated note id and names exactly the
one room the connection is in; with no current note the connection is in
no room. -/
def RegInv (s : SState) : Prop :=
  ∀ c, (∀ d, s.current c = some d → isValidObjectId d = true ∧ s.roomsOf c = [d]) ∧
       (s.current c = none → s.roomsOf c = [])

/-- The common final shape of a successful join: after inserting the
target room and overwriting `currentNoteId`, the invariant holds provided
the intermediate state agrees with the invariant away from `c` and the
joining connection's room list is `[]` or already `[noteId]`. -/
theorem regInv_setJoin (s' : SState) (c : ConnId) (noteId : String)
    (hv : isValidObjectId noteId = true)
    (hrest : ∀ x, x ≠ c →
      (∀ d, s'.current x = some d → isValidObjectId d = true ∧ s'.roomsOf x = [d]) ∧
      (s'.current x = none → s'.roomsOf x = []))
    (hc : s'.roomsOf c = [] ∨ s'.roomsOf c = [noteId]) :
    RegInv ((joinRoom s' c noteId).setCurrent c (some noteId)) := by
  intro x
  by_cases hx : x = c
  · subst hx
    constructor
    · intro d hd
      have hsome : some noteId = some d := by
        simpa [SState.setCurrent] using hd
      obtain rfl : noteId = d := by injection hsome
      refine ⟨hv, ?_⟩
      show (joinRoom s' x noteId).roomsOf x = [noteId]
      rcases hc with h0 | h1
      · simp [joinRoom, SState.setRooms, h0]
      · simp [joinRoom, SState.setRooms, h1]
    · intro hd
      simp [SState.setCurrent] at hd
  · have hcur : ((joinRoom s' c noteId).setCurrent c (some noteId)).current x
        = s'.current x := by
      simp [SState.setCurrent, joinRoom, SState.setRooms, hx]
    have hrooms : ((joinRoom s' c noteId).setCurrent c (some noteId)).roomsOf x
        = s'.roomsOf x := by
      simp [SState.setCurrent, joinRoom, SState.setRooms, hx]
    rw [hcur, hrooms]
    exact hrest x hx

/-- `join` preserves the registry invariant. -/
theorem regInv_join (s : SState) (c : ConnId) (noteId : String)
    (cap : Option String) (h : RegInv s) :
    RegInv (handleJoin s c noteId cap).state := by
  unfold handleJoin
  split
  · exact h
  · rename_i hval
    split
    · exact h
    · rename_i note hst
      have hv : isValidObjectId noteId = true := by
        cases hvb : isValidObjectId noteId
        · exact absurd (by simp [hvb]) hval
        · rfl
      split
      · exact h
      · dsimp only
        split
        · rename_i prev hprev
          split
          · -- switching rooms: leave the previous one first
            apply regInv_setJoin _ _ _ hv
            · intro x hxc
              constructor
              · intro d hd
                have := (h x).1 d (by simpa [leaveRoom, SState.setRooms, hxc] using hd)
                simpa [leaveRoom, SState.setRooms, hxc] using this
              · intro hd
                have := (h x).2 (by simpa [leaveRoom, SState.setRooms, hxc] using hd)
                simpa [leaveRoom, SState.setRooms, hxc] using this
            · left
              have hrooms : s.roomsOf c = [prev] := ((h c).1 prev hprev).2
              simp [leaveRoom, SState.setRooms, hrooms]
          · -- guard false: with a valid previous id this forces prev = noteId
            rename_i hguard
            have hpv : isValidObjectId prev = true := ((h c).1 prev hprev).1
            have hpne : prev ≠ "" := ne_empty_of_isValidObjectId hpv
            have hpeq : prev = noteId := by
              by_contra hne
              exact hguard (by simp [hpne, hne])
            apply regInv_setJoin _ _ _ hv
            · intro x hxc; exact h x
            · right
              rw [← hpeq]
              exact ((h c).1 prev hprev).2
        · -- no previous room
          rename_i hprev
          apply regInv_setJoin _ _ _ hv
          · intro x hxc; exact h x
          · left
            exact (h c).2 hprev

/-- `edit` preserves the registry invariant (it only touches the store). -/
theorem regInv_edit (s : SState) (c : ConnId) (id html title : String) (now : Nat)
    (h : RegInv s) : RegInv (handleEdit s c id html title now).1 := by
  unfold handleEdit
  split
  · exact h
  · split
    · exact h
    · split
      · exact h
      · exact h

/-- `leave` preserves the registry invariant. -/
theorem regInv_leave (s : SState) (c : ConnId) (nid : Option String)
    (h : RegInv s) : RegInv (handleLeave s c nid).1 := by
  unfold handleLeave
  dsimp only
  split
  · exact h
  · rename_i t htgt
    split
    · exact h
    · split
      · exact h
      · rename_i hne hmem
        have hcont : (s.roomsOf c).contains t = true := by
          cases hcb : (s.roomsOf c).contains t
          · exact absurd (by rw [hcb]; rfl) hmem
          · rfl
        have htmem : t ∈ s.roomsOf c := mem_of_contains hcont
        -- the invariant forces the current room to be exactly t
        rcases hcur : s.current c with _ | d
        · exact absurd (by rw [(h c).2 hcur] at htmem; exact htmem) (List.not_mem_nil t)
        · have hrooms : s.roomsOf c = [d] := ((h c).1 d hcur).2
          have htd : t = d := by
            rw [hrooms] at htmem
            simpa using htmem
          subst htd
          have hcond : (leaveRoom s c t).current c = some t := by
            simpa [leaveRoom, SState.setRooms] using hcur
          rw [if_pos hcond]
          intro x
          by_cases hx : x = c
          · subst hx
            constructor
            · intro e he
              simp [SState.setCurrent] at he
            · intro _
              show ((leaveRoom s x t).setCurrent x none).roomsOf x = []
              simp [SState.setCurrent, leaveRoom, SState.setRooms, hrooms]
          · constructor
            · intro e he
              have := (h x).1 e
                (by simpa [SState.setCurrent, leaveRoom, SState.setRooms, hx] using he)
              simpa [SState.setCurrent, leaveRoom, SState.setRooms, hx] using this
            · intro he
              have := (h x).2
                (by simpa [SState.setCurrent, leaveRoom, SState.setRooms, hx] using he)
              simpa [SState.setCurrent, leaveRoom, SState.setRooms, hx] using this

/-- A new connection satisfies the invariant trivially. -/
theorem regInv_connect (s : SState) (c : ConnId) (h : RegInv s) :
    RegInv (handleConnect s c) := by
  intro x
  by_cases hx : x = c
  · subst hx
    constructor
    · intro d hd
      simp [handleConnect] at hd
    · intro _
      simp [handleConnect]
  · constructor
    · intro d hd
      have := (h x).1 d (by simpa [handleConnect, hx] using hd)
      simpa [handleConnect, hx] using this
    · intro hd
      have := (h x).2 (by simpa [handleConnect, hx] using hd)
      simpa [handleConnect, hx] using this

/-- Disconnect cleanup preserves the invariant. -/
theorem regInv_disconnect (s : SState) (c : ConnId) (h : RegInv s) :
    RegInv (handleDisconnect s c).1 := by
  intro x
  by_cases hx : x = c
  · subst hx
    constructor
    · intro d hd
      simp [handleDisconnect] at hd
    · intro _
      simp [handleDisconnect]
  · constructor
    · intro d hd
      have := (h x).1 d (by simpa [handleDisconnect, hx] using hd)
      simpa [handleDisconnect, hx] using this
    · intro hd
      have := (h x).2 (by simpa [handleDisconnect, hx] using hd)
      simpa [handleDisconnect, hx] using this

/-- C9: every operation of the room registry — join (including its
implicit switch away from a previous room), edit, leave, disconnect
cleanup, and a fresh connection — preserves the registry invariant, and
under it every connection is a member of at most one document room, both
before and after the operation. -/
theorem registry_at_most_one_room (s : SState) (e : Event) (h : RegInv s) :
    RegInv (applyEvent s e) ∧
    (∀ c, (s.roomsOf c).length ≤ 1) ∧
    (∀ c, ((applyEvent s e).roomsOf c).length ≤ 1) := by
  have hlen : ∀ t : SState, RegInv t → ∀ c, (t.roomsOf c).length ≤ 1 := by
    intro t ht c
    rcases hcur : t.current c with _ | d
    · rw [(ht c).2 hcur]; simp
    · rw [((ht c).1 d hcur).2]; simp
  have hpres : RegInv (applyEvent s e) := by
    cases e with
    | connect c => exact regInv_connect s c h
    | join c noteId cap => exact regInv_join s c noteId cap h
    | edit c id html title now => exact regInv_edit s c id html title now h
    | leave c nid => exact regInv_leave s c nid h
    | disconnect c => exact regInv_disconnect s c h
  exact ⟨hpres, hlen s h, hlen _ hpres⟩

/-- The initial server state: the store as given, no connections. -/
def initState (store : String → Option Note) : SState :=
  { store := store, conns := [], userOf := fun _ => none,
    current := fun _ => none, roomsOf := fun _ => [] }

/-- Witness for `registry_at_most_one_room`: the initial state with the
concrete store satisfies the invariant, and a join event preserves it. -/
theorem registry_at_most_one_room_witness :
    RegInv (initState exStore) ∧
    (RegInv (applyEvent (initState exStore) (Event.join 0 idP none)) ∧
     (∀ c, ((initState exStore).roomsOf c).length ≤ 1) ∧
     (∀ c, ((applyEvent (initState exStore) (Event.join 0 idP none)).roomsOf c).length ≤ 1)) :=
  have hinit : RegInv (initState exStore) := fun c =>
    ⟨fun d hd => by simp [initState] at hd, fun _ => rfl⟩
  ⟨hinit, registry_at_most_one_room (initState exStore) (Event.join 0 idP none) hinit⟩

end NotesApp
